import Mathlib

/-!
Verification of the LocalVCS backup/restore/compare engine (LocalVCS.py).

A directory tree, an archive, and an extracted archive are all modeled by their
walked listing: the list of (relative path, content) pairs that os.walk together
with os.path.relpath produces, which is also exactly the set of entries stored
in the zip archive.  File contents are lists of bytes (List Nat); for the backup
walk a file's content is an Option, where none models a file whose read raises.
Manifests are modeled by their key set together with the stored digest map,
where a digest of none models the JSON null written when hashing failed.
-/

namespace LocalVCS

/-- A loaded manifest (the file_hashes JSON object): its key set and the digest
stored for each key.  A stored value of none models JSON null, the marker
recorded by calculate_file_hash when reading the file failed. -/
structure Manifest (α : Type) where
  keys : Finset String
  digest : String → Option α

/-- The four classification sets produced by CompareThread: added, removed,
modified, unchanged. -/
structure DiffResult where
  added : Finset String
  removed : Finset String
  modified : Finset String
  unchanged : Finset String

/-- CompareThread.get_hash_based_differences: added = compare minus source,
removed = source minus compare, and every common key goes to modified when the
stored digests differ and to unchanged otherwise. -/
def get_hash_based_differences {α : Type} [DecidableEq α] (src cmp : Manifest α) : DiffResult :=
  { added := cmp.keys \ src.keys
    removed := src.keys \ cmp.keys
    modified := (src.keys ∩ cmp.keys).filter fun f => src.digest f ≠ cmp.digest f
    unchanged := (src.keys ∩ cmp.keys).filter fun f => src.digest f = cmp.digest f }

/-- BackupThread.calculate_file_hash: streams the file through md5 and returns
the hex digest; any read failure is caught and None is returned instead. -/
def calculate_file_hash {α : Type} (md5 : List Nat → α) : Option (List Nat) → Option α
  | some content => some (md5 content)
  | none => none

/-- The hash_data record written by BackupThread.run (the fields the claims
are about). -/
structure HashData (α : Type) where
  file_hashes : List (String × Option α)
  total_files : Nat

/-- The manifest-building walk of BackupThread.run (its first loop): every
walked file gets an entry via calculate_file_hash, so a read failure is
recorded as the null marker and the walk continues past it. -/
def hashWalk {α : Type} (md5 : List Nat → α)
    (walk : List (String × Option (List Nat))) : List (String × Option α) :=
  walk.map fun pc => (pc.1, calculate_file_hash md5 pc.2)

/-- The archive-writing loop of BackupThread.run (its second loop over the
same walk): zipf.write re-opens every walked file and stores its bytes under
the relative path; for a file that cannot be read the write raises, aborting
the loop (none). -/
def zipLoop : List (String × Option (List Nat)) → Option (List (String × List Nat))
  | [] => some []
  | (p, oc) :: rest =>
    match oc with
    | some c => (zipLoop rest).map fun es => (p, c) :: es
    | none => none

/-- BackupThread.run: build the hash map (absorbing per-file read failures),
then write the archive by re-reading every walked file inside the same try
block — an unreadable file makes zipf.write raise, the except handler emits
backup_failed and the manifest is never written — and only after a fully
successful archive write persist the hash_data manifest and report
completion with the manifest and the archive entries. -/
def backupRun {α : Type} (md5 : List Nat → α)
    (walk : List (String × Option (List Nat))) :
    Except Unit (HashData α × List (String × List Nat)) :=
  let fh := hashWalk md5 walk
  match zipLoop walk with
  | none => Except.error ()
  | some entries => Except.ok ({ file_hashes := fh, total_files := fh.length }, entries)

/-- The chunked content loop of CompareThread.files_differ: read 8192-byte
chunks from both files, report a difference on the first mismatching pair of
chunks, and stop at end of file. -/
def chunksDiffer (c1 c2 : List Nat) : Bool :=
  if h1 : c1.take 8192 ≠ c2.take 8192 then true
  else if h2 : c1.take 8192 = [] then false
  else chunksDiffer (c1.drop 8192) (c2.drop 8192)
termination_by c1.length
decreasing_by
  have hne : c1 ≠ [] := by
    intro h
    rw [h] at h2
    simp at h2
  have hpos : 0 < c1.length := List.length_pos.mpr hne
  simp only [List.length_drop]
  omega

/-- CompareThread.files_differ on two readable files: sizes first, then the
chunked byte comparison. -/
def files_differ (c1 c2 : List Nat) : Bool :=
  if c1.length ≠ c2.length then true
  else chunksDiffer c1 c2

/-- CompareThread.files_differ including its exception handler: when either
file cannot be read the whole body raises and the handler returns True. -/
def files_differ_io : Option (List Nat) → Option (List Nat) → Bool
  | some c1, some c2 => files_differ c1 c2
  | _, _ => true

/-- The relative-path set collected by the os.walk loops of
CompareThread.get_directory_differences. -/
def treeFiles {γ : Type} (t : List (String × γ)) : Finset String :=
  (t.map Prod.fst).toFinset

/-- CompareThread.get_directory_differences: set algebra on the walked
relative-path sets, with common files classified by files_differ. -/
def get_directory_differences (t1 t2 : List (String × List Nat)) : DiffResult :=
  { added := treeFiles t2 \ treeFiles t1
    removed := treeFiles t1 \ treeFiles t2
    modified := (treeFiles t1 ∩ treeFiles t2).filter
      fun f => files_differ_io (t1.lookup f) (t2.lookup f) = true
    unchanged := (treeFiles t1 ∩ treeFiles t2).filter
      fun f => files_differ_io (t1.lookup f) (t2.lookup f) = false }

/-- The manifest that BackupThread.run records for a tree whose files are all
readable: keys are the walked paths and each digest is md5 of the content
(calculate_file_hash on a readable file). -/
def manifestOfTree {α : Type} (md5 : List Nat → α)
    (t : List (String × List Nat)) : Manifest α :=
  { keys := treeFiles t
    digest := fun p => (t.lookup p).map md5 }

/-- One filesystem entry below the staging directory produced by extractall:
a regular file or a directory with named children. -/
inductive Entry (α : Type) where
  | file : α → Entry α
  | dir : List (String × Entry α) → Entry α

/-- The filesystem state RestoreThread.run manipulates: the destination
directory's contents (none when the directory does not exist) and the
temp_restore staging directory's contents. -/
structure RestoreState (α : Type) where
  dest : Option (List (String × Entry α))
  temp : Option (List (String × Entry α))

/-- The move step of RestoreThread.run: when the staging directory holds
exactly one item and that item is a directory, that directory is renamed onto
the destination (so its children become the destination's contents); otherwise
every top-level staged item is moved into the destination. -/
def moveStaged {α : Type} : List (String × Entry α) → List (String × Entry α)
  | [(_, Entry.dir cs)] => cs
  | items => items

/-- Modelled from the spec: the contents of the single top-level staged
directory, when the staged top level is exactly one directory. -/
def singleDirContents {α : Type} : List (String × Entry α) → Option (List (String × Entry α))
  | [(_, Entry.dir cs)] => some cs
  | _ => none

/-- RestoreThread.run: recreate the staging directory, extract the archive
into it (extractResult is none when opening or extracting the zip raises, in
which case the handler reports failure and nothing further runs), then remove
the destination, move the staged items in, and remove the staging directory.
The Bool result is whether restore_completed was emitted. -/
def restoreRun {α : Type} (extractResult : Option (List (String × Entry α)))
    (st : RestoreState α) : RestoreState α × Bool :=
  let st1 : RestoreState α := { st with temp := some [] }
  match extractResult with
  | none => (st1, false)
  | some items =>
    let st2 : RestoreState α := { st1 with temp := some items }
    let st3 : RestoreState α := { st2 with dest := none }
    let st4 : RestoreState α := { st3 with dest := some (moveStaged items), temp := some [] }
    ({ st4 with temp := none }, true)

/-!
Embedding of the Python difflib functions that BackupRestoreApp.get_file_diff
invokes: SequenceMatcher (with no junk function; autojunk only activates for
sequences of 200 or more lines, far above the inputs considered here, so the
junk sets are empty) and unified_diff with n=3 and lineterm "".
-/

/-- The b2j index built by SequenceMatcher: for each line of b, the ascending
list of the indices at which it occurs. -/
def b2jInsert (m : List (String × List Nat)) (s : String) (j : Nat) : List (String × List Nat) :=
  match m with
  | [] => [(s, [j])]
  | (k, js) :: rest => if k = s then (k, js ++ [j]) :: rest else (k, js) :: b2jInsert rest s j

/-- SequenceMatcher.__chain_b with no junk: index every line of b. -/
def chainB (b : List String) : List (String × List Nat) :=
  b.enum.foldl (fun m p => b2jInsert m p.2 p.1) []

/-- The inner loop of find_longest_match over the occurrence list of a[i] in
b: skip j below blo, stop at j at or above bhi, extend the diagonal run length
recorded in the previous row (k = j2len[j-1] + 1, where a missing entry and
the Python index -1 both count as 0), and track the best (longer) run. -/
def flmInnerLoop (blo bhi i : Nat) :
    List Nat → List (Nat × Nat) → List (Nat × Nat) → Nat × Nat × Nat →
    List (Nat × Nat) × (Nat × Nat × Nat)
  | [], _, newj2len, best => (newj2len, best)
  | j :: js, j2len, newj2len, best =>
    if j < blo then flmInnerLoop blo bhi i js j2len newj2len best
    else if bhi ≤ j then (newj2len, best)
    else
      let prev := if j = 0 then 0 else (j2len.lookup (j - 1)).getD 0
      let k := prev + 1
      let newj2len2 := (j, k) :: newj2len
      let best2 := if best.2.2 < k then (i + 1 - k, j + 1 - k, k) else best
      flmInnerLoop blo bhi i js j2len newj2len2 best2

/-- The outer loop of find_longest_match over i in range(alo, ahi); the second
Nat argument counts the remaining iterations (ahi - i). -/
def flmOuter (a : List String) (b2j : List (String × List Nat)) (blo bhi : Nat) :
    Nat → Nat → List (Nat × Nat) → Nat × Nat × Nat → Nat × Nat × Nat
  | _, 0, _, best => best
  | i, cnt + 1, j2len, best =>
    let js := (b2j.lookup (a.getD i "")).getD []
    let r := flmInnerLoop blo bhi i js j2len [] best
    flmOuter a b2j blo bhi (i + 1) cnt r.1 r.2

/-- The first extension loop of find_longest_match: while besti is above alo,
bestj above blo and the preceding lines match, grow the match to the left. -/
def extendLeft (a b : List String) (alo blo : Nat) : Nat → Nat → Nat → Nat × Nat × Nat
  | 0, bestj, bestsize => (0, bestj, bestsize)
  | bi + 1, bestj, bestsize =>
    if alo < bi + 1 ∧ blo < bestj ∧ a.getD bi "" = b.getD (bestj - 1) "" then
      extendLeft a b alo blo bi (bestj - 1) (bestsize + 1)
    else (bi + 1, bestj, bestsize)

/-- The second extension loop of find_longest_match: while the lines just past
the match agree (and stay below ahi and bhi), grow the match to the right.
The first Nat argument is ahi - (besti + bestsize), the number of remaining
slots below ahi, so that the loop structure is primitive recursion. -/
def extendRight (a b : List String) (bhi besti bestj : Nat) : Nat → Nat → Nat
  | 0, bestsize => bestsize
  | fuel + 1, bestsize =>
    if bestj + bestsize < bhi ∧ a.getD (besti + bestsize) "" = b.getD (bestj + bestsize) "" then
      extendRight a b bhi besti bestj fuel (bestsize + 1)
    else bestsize

/-- SequenceMatcher.find_longest_match on a slice (junk-free, so the two junk
extension loops never fire). -/
def find_longest_match (a b : List String) (b2j : List (String × List Nat))
    (alo ahi blo bhi : Nat) : Nat × Nat × Nat :=
  let best := flmOuter a b2j blo bhi alo (ahi - alo) [] (alo, blo, 0)
  let left := extendLeft a b alo blo best.1 best.2.1 best.2.2
  let size := extendRight a b bhi left.1 left.2.1 (ahi - (left.1 + left.2.2)) left.2.2
  (left.1, left.2.1, size)

/-- The stack-driven loop of get_matching_blocks: pop a slice, find its
longest match, record it and push the left and the right remainders.  Each
popped slice is split into strictly smaller disjoint slices, so the Python
loop runs at most (la + lb + 2)^2 times; the explicit fuel argument is an
upper bound on that iteration count and makes the recursion primitive. -/
def gmbLoop (a b : List String) (b2j : List (String × List Nat)) :
    Nat → List (Nat × Nat × Nat × Nat) → List (Nat × Nat × Nat) → List (Nat × Nat × Nat)
  | _, [], acc => acc
  | 0, _, acc => acc
  | fuel + 1, (alo, ahi, blo, bhi) :: rest, acc =>
    let m := find_longest_match a b b2j alo ahi blo bhi
    if m.2.2 ≠ 0 then
      let q1 := if alo < m.1 ∧ blo < m.2.1 then (alo, m.1, blo, m.2.1) :: rest else rest
      let q2 := if m.1 + m.2.2 < ahi ∧ m.2.1 + m.2.2 < bhi then
        (m.1 + m.2.2, ahi, m.2.1 + m.2.2, bhi) :: q1 else q1
      gmbLoop a b b2j fuel q2 (acc ++ [m])
    else gmbLoop a b b2j fuel rest acc

/-- Lexicographic comparison of (i, j, size) triples, as Python tuple
ordering used by matching_blocks.sort(). -/
def tripLE (x y : Nat × Nat × Nat) : Bool :=
  Nat.blt x.1 y.1 ||
    (x.1 == y.1 && (Nat.blt x.2.1 y.2.1 || (x.2.1 == y.2.1 && Nat.ble x.2.2 y.2.2)))

/-- Insert into a lexicographically sorted triple list. -/
def insertTriple (x : Nat × Nat × Nat) : List (Nat × Nat × Nat) → List (Nat × Nat × Nat)
  | [] => [x]
  | y :: rest => if tripLE x y then x :: y :: rest else y :: insertTriple x rest

/-- matching_blocks.sort(): sort the collected matches lexicographically. -/
def sortTriples : List (Nat × Nat × Nat) → List (Nat × Nat × Nat)
  | [] => []
  | x :: rest => insertTriple x (sortTriples rest)

/-- The second loop of get_matching_blocks: merge adjacent matches, dropping
the initial zero-length sentinel. -/
def collapseLoop : Nat → Nat → Nat → List (Nat × Nat × Nat) → List (Nat × Nat × Nat)
  | i1, j1, k1, [] => if k1 ≠ 0 then [(i1, j1, k1)] else []
  | i1, j1, k1, (i2, j2, k2) :: rest =>
    if i1 + k1 = i2 ∧ j1 + k1 = j2 then collapseLoop i1 j1 (k1 + k2) rest
    else if k1 ≠ 0 then (i1, j1, k1) :: collapseLoop i2 j2 k2 rest
    else collapseLoop i2 j2 k2 rest

/-- SequenceMatcher.get_matching_blocks: recursively split around longest
matches, sort, merge adjacent blocks and append the (la, lb, 0) terminator. -/
def get_matching_blocks (a b : List String) : List (Nat × Nat × Nat) :=
  let la := a.length
  let lb := b.length
  let b2j := chainB b
  let fuel := (la + lb + 2) * (la + lb + 2)
  let blocks := gmbLoop a b b2j fuel [(0, la, 0, lb)] []
  collapseLoop 0 0 0 (sortTriples blocks) ++ [(la, lb, 0)]

/-- An opcode tag of SequenceMatcher.get_opcodes. -/
inductive OpTag where
  | replace
  | delete
  | insert
  | equal
deriving DecidableEq

/-- One (tag, i1, i2, j1, j2) opcode. -/
structure Opcode where
  tag : OpTag
  i1 : Nat
  i2 : Nat
  j1 : Nat
  j2 : Nat
deriving DecidableEq

/-- The loop of get_opcodes: between consecutive matching blocks emit the gap
opcode (replace, delete or insert), then an equal opcode for the block. -/
def opcodesLoop : Nat → Nat → List (Nat × Nat × Nat) → List Opcode
  | _, _, [] => []
  | i, j, (ai, bj, size) :: rest =>
    let tagged : List Opcode :=
      if i < ai ∧ j < bj then [⟨OpTag.replace, i, ai, j, bj⟩]
      else if i < ai then [⟨OpTag.delete, i, ai, j, bj⟩]
      else if j < bj then [⟨OpTag.insert, i, ai, j, bj⟩]
      else []
    let eqs : List Opcode := if size ≠ 0 then [⟨OpTag.equal, ai, ai + size, bj, bj + size⟩] else []
    tagged ++ eqs ++ opcodesLoop (ai + size) (bj + size) rest

/-- SequenceMatcher.get_opcodes. -/
def get_opcodes (a b : List String) : List Opcode :=
  opcodesLoop 0 0 (get_matching_blocks a b)

/-- get_grouped_opcodes: clip a leading equal opcode to n context lines. -/
def adjustFirst (n : Nat) : List Opcode → List Opcode
  | [] => []
  | c :: rest =>
    if c.tag = OpTag.equal then
      { c with i1 := max c.i1 (c.i2 - n), j1 := max c.j1 (c.j2 - n) } :: rest
    else c :: rest

/-- get_grouped_opcodes: clip a trailing equal opcode to n context lines. -/
def adjustLast (n : Nat) : List Opcode → List Opcode
  | [] => []
  | [c] =>
    if c.tag = OpTag.equal then
      [{ c with i2 := min c.i2 (c.i1 + n), j2 := min c.j2 (c.j1 + n) }]
    else [c]
  | c :: rest => c :: adjustLast n rest

/-- The grouping loop of get_grouped_opcodes: a large equal opcode (more than
2n lines) ends the current group and starts the next one, each keeping n
context lines; a final group is emitted unless it is a single equal opcode. -/
def groupLoop (n : Nat) : List Opcode → List Opcode → List (List Opcode)
  | group, [] =>
    match group with
    | [] => []
    | [c] => if c.tag = OpTag.equal then [] else [[c]]
    | _ => [group]
  | group, c :: rest =>
    if c.tag = OpTag.equal ∧ n + n < c.i2 - c.i1 then
      (group ++ [{ c with i2 := min c.i2 (c.i1 + n), j2 := min c.j2 (c.j1 + n) }]) ::
        groupLoop n [{ c with i1 := max c.i1 (c.i2 - n), j1 := max c.j1 (c.j2 - n) }] rest
    else groupLoop n (group ++ [c]) rest

/-- SequenceMatcher.get_grouped_opcodes with context size n. -/
def get_grouped_opcodes (n : Nat) (a b : List String) : List (List Opcode) :=
  let codes0 := get_opcodes a b
  let codes1 := if codes0.isEmpty then [⟨OpTag.equal, 0, 1, 0, 1⟩] else codes0
  groupLoop n [] (adjustLast n (adjustFirst n codes1))

/-- difflib._format_range_unified. -/
def formatRangeUnified (start stop : Nat) : String :=
  let len := stop - start
  if len = 1 then toString (start + 1)
  else
    let beginning := if len = 0 then start else start + 1
    toString beginning ++ "," ++ toString len

/-- The Python slice a[i1:i2]. -/
def sliceList (l : List String) (i1 i2 : Nat) : List String :=
  (l.drop i1).take (i2 - i1)

/-- The per-opcode lines yielded by unified_diff: context lines with a space,
removed lines with a minus, added lines with a plus. -/
def opcodeLines (a b : List String) (c : Opcode) : List String :=
  match c.tag with
  | OpTag.equal => (sliceList a c.i1 c.i2).map (fun s => " " ++ s)
  | OpTag.replace =>
    (sliceList a c.i1 c.i2).map (fun s => "-" ++ s) ++
      (sliceList b c.j1 c.j2).map (fun s => "+" ++ s)
  | OpTag.delete => (sliceList a c.i1 c.i2).map (fun s => "-" ++ s)
  | OpTag.insert => (sliceList b c.j1 c.j2).map (fun s => "+" ++ s)

/-- The lines unified_diff yields for one group: the hunk header followed by
the per-opcode lines. -/
def groupLines (a b : List String) (group : List Opcode) : List String :=
  match group with
  | [] => []
  | first :: rest =>
    let last := (first :: rest).getLastD first
    ("@@ -" ++ formatRangeUnified first.i1 last.i2 ++ " +" ++
        formatRangeUnified first.j1 last.j2 ++ " @@") ::
      ((first :: rest).map (opcodeLines a b)).flatten

/-- difflib.unified_diff with n=3, empty file dates and lineterm "", as
invoked by BackupRestoreApp.get_file_diff: the two file headers are emitted
once if there is at least one group, then each group's lines. -/
def unified_diff (a b : List String) (fromfile tofile : String) : List String :=
  let groups := get_grouped_opcodes 3 a b
  if groups.isEmpty then []
  else ("--- " ++ fromfile) :: ("+++ " ++ tofile) :: (groups.map (groupLines a b)).flatten

/-- Python str.startswith, on the character lists of the strings. -/
def strStartsWith (s pat : String) : Bool :=
  pat.data.isPrefixOf s.data

/-- The label BackupRestoreApp.add_diff_to_widget gives one diff line. -/
inductive DiffLabel where
  | added
  | removed
  | hunkHeader
  | fileHeader
  | context
deriving DecidableEq

/-- The elif chain of add_diff_to_widget, in source order: a leading plus is
an added line, a leading minus a removed line, a leading at-sign a hunk
header, a leading triple minus or triple plus a file header, anything else a
context line. -/
def labelLine (line : String) : DiffLabel :=
  if strStartsWith line "+" then DiffLabel.added
  else if strStartsWith line "-" then DiffLabel.removed
  else if strStartsWith line "@" then DiffLabel.hunkHeader
  else if strStartsWith line "---" || strStartsWith line "+++" then DiffLabel.fileHeader
  else DiffLabel.context

/-- BackupRestoreApp.add_diff_to_widget: label every line of the diff. -/
def add_diff_to_widget (diffContent : List String) : List DiffLabel :=
  diffContent.map labelLine

/-- Existence of the two temporary extraction directories used by
CompareThread.compare_backups_legacy and by BackupRestoreApp.get_file_diff. -/
structure TmpState where
  tempSource : Bool
  tempCompare : Bool
deriving DecidableEq

/-- The error handlers' cleanup: remove each temp directory if it exists. -/
def removeTempsIfExist (st : TmpState) : TmpState :=
  let s1 := if st.tempSource then { st with tempSource := false } else st
  if s1.tempCompare then { s1 with tempCompare := false } else s1

/-- CompareThread.compare_backups_legacy: recreate both temp directories,
extract both archives (e1, e2 are none when the corresponding extraction
raises, in which case the handler removes both temp directories and
re-raises), compare the extracted trees, then remove both temp directories. -/
def compare_backups_legacy_run (e1 e2 : Option (List (String × List Nat)))
    (st : TmpState) : TmpState × Option DiffResult :=
  let stMade : TmpState := ⟨true, true⟩
  match e1 with
  | none => (removeTempsIfExist stMade, none)
  | some t1 =>
    match e2 with
    | none => (removeTempsIfExist stMade, none)
    | some t2 =>
      let d := get_directory_differences t1 t2
      (⟨false, false⟩, some d)

/-- BackupRestoreApp.get_file_diff: recreate both temp directories, extract
both archives (none models an extraction raising, handled by the except
branch which removes both temp directories), then look up the requested file
in both trees.  When either file is missing the function returns None
immediately, before the cleanup statements; otherwise it computes the unified
diff and removes both temp directories.  File contents are the readlines()
line lists. -/
def get_file_diff_run (srcName cmpName : String)
    (e1 e2 : Option (List (String × List String))) (fp : String)
    (st : TmpState) : TmpState × Option (List String) :=
  let stMade : TmpState := ⟨true, true⟩
  match e1 with
  | none => (removeTempsIfExist stMade, none)
  | some t1 =>
    match e2 with
    | none => (removeTempsIfExist stMade, none)
    | some t2 =>
      match t1.lookup fp, t2.lookup fp with
      | some lines1, some lines2 =>
        let d := unified_diff lines1 lines2 (srcName ++ "/" ++ fp) (cmpName ++ "/" ++ fp)
        (⟨false, false⟩, some d)
      | _, _ => (stMade, none)

/-- Which of a snapshot's three files currently exist on disk: the zip
archive, the _hashes.json manifest, and the _notes.txt sidecar. -/
structure StoreState where
  archive : Bool
  hashFile : Bool
  notesFile : Bool
deriving DecidableEq

/-- BackupRestoreApp.delete_backup after confirmation: os.remove the archive
unconditionally (raising when it is absent, which the handler reports as a
failure), then remove the hash file and the notes file only if they exist. -/
def delete_backup (st : StoreState) : Except Unit StoreState :=
  if st.archive then
    let st1 : StoreState := { st with archive := false }
    let st2 : StoreState := if st1.hashFile then { st1 with hashFile := false } else st1
    let st3 : StoreState := if st2.notesFile then { st2 with notesFile := false } else st2
    Except.ok st3
  else Except.error ()

/-- Concrete two-manifest fixture with one common key and differing digests. -/
def mA : Manifest String := { keys := {"x"}, digest := fun _ => some "h1" }

/-- Concrete second manifest for the partition witness. -/
def mB : Manifest String := { keys := {"x"}, digest := fun _ => some "h2" }

/-- Concrete manifest whose only key carries the unavailable (null) digest. -/
def mU : Manifest String := { keys := {"u"}, digest := fun _ => none }

/-- Concrete second manifest with the same key and a null digest. -/
def mV : Manifest String := { keys := {"u"}, digest := fun _ => none }

/-- Concrete backup walk containing an unreadable file. -/
def wWalk : List (String × Option (List Nat)) := [("bad.txt", none), ("ok.txt", some [1])]

/-- Concrete digest function for the backup witness. -/
def wMd5 : List Nat → String := fun _ => "h"

/-- Concrete one-file tree for the fallback-equivalence witness. -/
def t1w : List (String × List Nat) := [("f.txt", [0])]

/-- Concrete second one-file tree, same path and different content. -/
def t2w : List (String × List Nat) := [("f.txt", [1])]

/-- The lookup of a key that occurs among an association list's keys
succeeds. -/
theorem lookup_some_of_mem_keys {β : Type} (l : List (String × β)) (f : String)
    (h : f ∈ l.map Prod.fst) : ∃ c, l.lookup f = some c := by
  induction l with
  | nil => simp at h
  | cons p rest ih =>
    obtain ⟨k, v⟩ := p
    by_cases hf : f = k
    · exact ⟨v, by simp [List.lookup, hf]⟩
    · have h2 : f ∈ rest.map Prod.fst := by
        simp only [List.map_cons, List.mem_cons] at h
        rcases h with h | h
        · exact absurd h hf
        · exact h
      obtain ⟨c, hc⟩ := ih h2
      refine ⟨c, ?_⟩
      have hbeq : (f == k) = false := beq_eq_false_iff_ne.mpr hf
      simp [List.lookup, hbeq, hc]

/-- The chunked loop of files_differ decides list inequality (for equal
lengths, as guaranteed by the size check before it). -/
theorem chunksDiffer_spec (c1 c2 : List Nat) (h : c1.length = c2.length) :
    chunksDiffer c1 c2 = true ↔ c1 ≠ c2 := by
  unfold chunksDiffer
  split_ifs with h1 h2
  · refine ⟨fun _ heq => h1 (by rw [heq]), fun _ => rfl⟩
  · have hc1 : c1 = [] := by
      rcases List.take_eq_nil_iff.mp h2 with h' | h'
      · exact absurd h' (by norm_num)
      · exact h'
    have h0 : c2.length = 0 := by rw [← h, hc1]; rfl
    have hc2 : c2 = [] := List.length_eq_zero.mp h0
    subst hc1
    subst hc2
    simp
  · have ht : c1.take 8192 = c2.take 8192 := not_not.mp h1
    have hlen : (c1.drop 8192).length = (c2.drop 8192).length := by
      simp [List.length_drop, h]
    rw [chunksDiffer_spec (c1.drop 8192) (c2.drop 8192) hlen]
    constructor
    · intro hd heq
      exact hd (by rw [heq])
    · intro hne hdeq
      apply hne
      calc c1 = c1.take 8192 ++ c1.drop 8192 := (List.take_append_drop _ _).symm
        _ = c2.take 8192 ++ c2.drop 8192 := by rw [ht, hdeq]
        _ = c2 := List.take_append_drop _ _
termination_by c1.length
decreasing_by
  have hne : c1 ≠ [] := by
    intro hx
    rw [hx] at h2
    simp at h2
  have hpos : 0 < c1.length := List.length_pos.mpr hne
  simp only [List.length_drop]
  omega

/-- files_differ on two readable files decides exactly byte inequality. -/
theorem files_differ_spec (c1 c2 : List Nat) : files_differ c1 c2 = true ↔ c1 ≠ c2 := by
  unfold files_differ
  split_ifs with h
  · refine ⟨fun _ heq => h (by rw [heq]), fun _ => rfl⟩
  · exact chunksDiffer_spec c1 c2 (not_not.mp h)

/-- The move step equals the spec-side description: the single top-level
directory's contents when there is one, the staged items themselves
otherwise. -/
theorem moveStaged_eq {α : Type} (items : List (String × Entry α)) :
    moveStaged items = (singleDirContents items).getD items := by
  match items with
  | [] => rfl
  | [(_, Entry.file _)] => rfl
  | [(_, Entry.dir _)] => rfl
  | (_, Entry.file _) :: _ :: _ => rfl
  | (_, Entry.dir _) :: _ :: _ => rfl

/-- Claim C1: the hash-based compare classifies keys as added = keys(B) minus
keys(A), removed = keys(A) minus keys(B), each common key is modified exactly
when its digests differ and unchanged otherwise, the four sets cover
keys(A) union keys(B), and they are pairwise disjoint. -/
theorem hash_diff_partition {α : Type} [DecidableEq α] (A B : Manifest α) :
    (get_hash_based_differences A B).added = B.keys \ A.keys ∧
    (get_hash_based_differences A B).removed = A.keys \ B.keys ∧
    (∀ f, f ∈ A.keys → f ∈ B.keys →
      ((f ∈ (get_hash_based_differences A B).modified ↔ A.digest f ≠ B.digest f) ∧
        (f ∈ (get_hash_based_differences A B).unchanged ↔ A.digest f = B.digest f))) ∧
    ((get_hash_based_differences A B).added ∪ (get_hash_based_differences A B).removed ∪
        (get_hash_based_differences A B).modified ∪ (get_hash_based_differences A B).unchanged =
      A.keys ∪ B.keys) ∧
    Disjoint (get_hash_based_differences A B).added (get_hash_based_differences A B).removed ∧
    Disjoint (get_hash_based_differences A B).added (get_hash_based_differences A B).modified ∧
    Disjoint (get_hash_based_differences A B).added (get_hash_based_differences A B).unchanged ∧
    Disjoint (get_hash_based_differences A B).removed (get_hash_based_differences A B).modified ∧
    Disjoint (get_hash_based_differences A B).removed (get_hash_based_differences A B).unchanged ∧
    Disjoint (get_hash_based_differences A B).modified (get_hash_based_differences A B).unchanged := by
  refine ⟨rfl, rfl, ?_, ?_, ?_, ?_, ?_, ?_, ?_, ?_⟩
  · intro f hA hB
    constructor
    · simp [get_hash_based_differences, Finset.mem_filter, Finset.mem_inter, hA, hB]
    · simp [get_hash_based_differences, Finset.mem_filter, Finset.mem_inter, hA, hB]
  · ext f
    by_cases hA : f ∈ A.keys <;> by_cases hB : f ∈ B.keys <;>
      by_cases hd : A.digest f = B.digest f <;>
      simp [get_hash_based_differences, Finset.mem_union, Finset.mem_sdiff,
        Finset.mem_filter, Finset.mem_inter, hA, hB, hd]
  all_goals
    rw [Finset.disjoint_left]
    intro f hf hg
    simp only [get_hash_based_differences, Finset.mem_sdiff, Finset.mem_filter,
      Finset.mem_inter] at hf hg
    tauto

/-- Witness for claim C1: the common-key classification instantiated at two
concrete manifests sharing the key x with different digests. -/
theorem hash_diff_partition_witness :
    ("x" ∈ mA.keys) ∧ ("x" ∈ mB.keys) ∧
    (("x" ∈ (get_hash_based_differences mA mB).modified ↔ mA.digest "x" ≠ mB.digest "x") ∧
      ("x" ∈ (get_hash_based_differences mA mB).unchanged ↔ mA.digest "x" = mB.digest "x")) :=
  ⟨by decide, by decide, (hash_diff_partition mA mB).2.2.1 "x" (by decide) (by decide)⟩

/-- Claim C2: when extraction fails, RestoreThread.run stops inside the try
block before the destination is touched, so the destination's prior contents
are unchanged and failure is reported. -/
theorem restore_extract_fail_preserves_dest {α : Type} (st : RestoreState α) :
    ((restoreRun none st).1).dest = st.dest ∧ (restoreRun none st).2 = false :=
  ⟨rfl, rfl⟩

/-- Claim C7: after a successful extraction, the destination's new contents
are the single staged top-level directory's contents when there is exactly one
staged item and it is a directory, and the staged top-level items themselves
otherwise. -/
theorem restore_success_replaces_dest {α : Type} (st : RestoreState α)
    (items : List (String × Entry α)) :
    ((restoreRun (some items) st).1).dest = some ((singleDirContents items).getD items) ∧
    (restoreRun (some items) st).2 = true := by
  refine ⟨?_, rfl⟩
  show some (moveStaged items) = some ((singleDirContents items).getD items)
  rw [moveStaged_eq]

/-- Counterexample to claim C5: deleting a snapshot whose archive file is
already absent does not succeed; the unguarded os.remove raises and the
operation reports failure. -/
theorem delete_missing_archive_fails :
    delete_backup ⟨false, true, true⟩ = Except.error () := rfl

/-- Claim C5 as amended: when the archive exists, delete removes all three
files, tolerating absence of the manifest and of the notes sidecar; when the
archive itself is absent, delete fails. -/
theorem delete_backup_amended (st : StoreState) :
    (st.archive = true → delete_backup st = Except.ok ⟨false, false, false⟩) ∧
    (st.archive = false → delete_backup st = Except.error ()) := by
  obtain ⟨a, h, n⟩ := st
  cases a
  · exact ⟨fun ha => Bool.noConfusion ha, fun _ => rfl⟩
  · refine ⟨fun _ => ?_, fun hn => Bool.noConfusion hn⟩
    cases h <;> cases n <;> rfl

/-- Witness for the amended claim C5: deleting a snapshot with an archive and
a manifest but no notes file succeeds and removes everything. -/
theorem delete_backup_amended_witness :
    ((⟨true, true, false⟩ : StoreState).archive = true) ∧
    delete_backup ⟨true, true, false⟩ = Except.ok ⟨false, false, false⟩ :=
  ⟨rfl, (delete_backup_amended ⟨true, true, false⟩).1 rfl⟩

/-- Claim C3: on a pair of trees with readable files, the legacy byte
comparison classifies a common file as modified exactly when the hash-based
path run on the manifests of the same trees does, and likewise for unchanged
(for any injective digest function, which is the collision-freeness the digest
contract assumes). -/
theorem fallback_matches_hash_path {α : Type} [DecidableEq α] (md5 : List Nat → α)
    (hinj : Function.Injective md5) (t1 t2 : List (String × List Nat)) (f : String)
    (h1 : f ∈ (manifestOfTree md5 t1).keys) (h2 : f ∈ (manifestOfTree md5 t2).keys) :
    (f ∈ (get_directory_differences t1 t2).modified ↔
      f ∈ (get_hash_based_differences (manifestOfTree md5 t1) (manifestOfTree md5 t2)).modified) ∧
    (f ∈ (get_directory_differences t1 t2).unchanged ↔
      f ∈ (get_hash_based_differences (manifestOfTree md5 t1) (manifestOfTree md5 t2)).unchanged) := by
  have h1' : f ∈ t1.map Prod.fst := by
    simpa [manifestOfTree, treeFiles, List.mem_toFinset] using h1
  have h2' : f ∈ t2.map Prod.fst := by
    simpa [manifestOfTree, treeFiles, List.mem_toFinset] using h2
  obtain ⟨c1, hc1⟩ := lookup_some_of_mem_keys t1 f h1'
  obtain ⟨c2, hc2⟩ := lookup_some_of_mem_keys t2 f h2'
  have hk1 : f ∈ treeFiles t1 := h1
  have hk2 : f ∈ treeFiles t2 := h2
  have hdig : ((manifestOfTree md5 t1).digest f = (manifestOfTree md5 t2).digest f) ↔ c1 = c2 := by
    have e1 : (manifestOfTree md5 t1).digest f = some (md5 c1) := by
      show (t1.lookup f).map md5 = some (md5 c1)
      rw [hc1]
      rfl
    have e2 : (manifestOfTree md5 t2).digest f = some (md5 c2) := by
      show (t2.lookup f).map md5 = some (md5 c2)
      rw [hc2]
      rfl
    rw [e1, e2]
    constructor
    · intro hx
      exact hinj (Option.some.inj hx)
    · intro hx
      rw [hx]
  have hfd : files_differ_io (t1.lookup f) (t2.lookup f) = true ↔ ¬c1 = c2 := by
    rw [hc1, hc2]
    show files_differ c1 c2 = true ↔ ¬c1 = c2
    exact files_differ_spec c1 c2
  have hfd2 : files_differ_io (t1.lookup f) (t2.lookup f) = false ↔ c1 = c2 := by
    constructor
    · intro hx
      by_contra hne
      have hy := hfd.mpr hne
      rw [hx] at hy
      exact Bool.noConfusion hy
    · intro hx
      by_contra hy
      have hz : files_differ_io (t1.lookup f) (t2.lookup f) = true := by
        rcases Bool.eq_false_or_eq_true (files_differ_io (t1.lookup f) (t2.lookup f)) with hb | hb
        · exact hb
        · exact absurd hb hy
      exact (hfd.mp hz) hx
  constructor
  · simp only [get_directory_differences, get_hash_based_differences, Finset.mem_filter,
      Finset.mem_inter, h1, h2, hk1, hk2, true_and, and_true]
    rw [hfd]
    exact not_congr hdig.symm
  · simp only [get_directory_differences, get_hash_based_differences, Finset.mem_filter,
      Finset.mem_inter, h1, h2, hk1, hk2, true_and, and_true]
    rw [hfd2]
    exact hdig.symm

/-- Witness for claim C3: the equivalence instantiated at two concrete
one-file trees with different contents and the identity digest. -/
theorem fallback_matches_hash_path_witness :
    Function.Injective (fun c : List Nat => c) ∧
    "f.txt" ∈ (manifestOfTree (fun c : List Nat => c) t1w).keys ∧
    "f.txt" ∈ (manifestOfTree (fun c : List Nat => c) t2w).keys ∧
    (("f.txt" ∈ (get_directory_differences t1w t2w).modified ↔
        "f.txt" ∈ (get_hash_based_differences (manifestOfTree (fun c : List Nat => c) t1w)
          (manifestOfTree (fun c : List Nat => c) t2w)).modified) ∧
      ("f.txt" ∈ (get_directory_differences t1w t2w).unchanged ↔
        "f.txt" ∈ (get_hash_based_differences (manifestOfTree (fun c : List Nat => c) t1w)
          (manifestOfTree (fun c : List Nat => c) t2w)).unchanged)) :=
  ⟨fun _ _ hx => hx, by decide, by decide,
    fallback_matches_hash_path (fun c => c) (fun _ _ hx => hx) t1w t2w "f.txt"
      (by decide) (by decide)⟩

/-- The archive-writing loop raises at an unreadable walked file. -/
theorem zipLoop_none_of_mem (walk : List (String × Option (List Nat))) (p : String)
    (hp : (p, (none : Option (List Nat))) ∈ walk) : zipLoop walk = none := by
  induction walk with
  | nil => simp at hp
  | cons q rest ih =>
    rcases List.mem_cons.mp hp with h | h
    · rw [← h]
      rfl
    · obtain ⟨qp, qc⟩ := q
      cases qc with
      | none => rfl
      | some c => simp [zipLoop, ih h]

/-- The archive-writing loop succeeds when every walked file is readable. -/
theorem zipLoop_some_of_readable (walk : List (String × Option (List Nat)))
    (h : ∀ pc ∈ walk, pc.2 ≠ (none : Option (List Nat))) :
    ∃ es, zipLoop walk = some es := by
  induction walk with
  | nil => exact ⟨[], rfl⟩
  | cons q rest ih =>
    obtain ⟨qp, qc⟩ := q
    cases qc with
    | none => exact absurd rfl (h (qp, none) (List.mem_cons_self _ _))
    | some c =>
      obtain ⟨es, hes⟩ := ih fun pc hpc => h pc (List.mem_cons_of_mem _ hpc)
      exact ⟨(qp, c) :: es, by simp [zipLoop, hes]⟩

/-- Counterexample to claim C6: on a concrete walk containing an unreadable
file the backup does not complete: the hashing walk records the null marker,
but the archive-writing loop of the same try block raises when it re-reads
the unreadable file, so the run reports failure and writes no manifest. -/
theorem backup_unreadable_aborts : backupRun wMd5 wWalk = Except.error () := rfl

/-- Claim C6 as amended: calculate_file_hash returns the null marker instead
of raising, and the manifest-building walk records that marker and continues
past an unreadable file with an entry for every walked file; but the
archive-writing loop of the same try block re-reads every file, so a walk
containing an unreadable file makes the whole backup fail with no manifest
written, and when every walked file is readable the backup completes with
the recorded hash map. -/
theorem backup_unreadable_amended {α : Type} (md5 : List Nat → α)
    (walk : List (String × Option (List Nat))) :
    calculate_file_hash md5 none = (none : Option α) ∧
    (∀ pc ∈ walk, (pc.1, calculate_file_hash md5 pc.2) ∈ hashWalk md5 walk) ∧
    (∀ p : String, (p, (none : Option (List Nat))) ∈ walk →
      (p, (none : Option α)) ∈ hashWalk md5 walk) ∧
    (hashWalk md5 walk).length = walk.length ∧
    ((∃ p, (p, (none : Option (List Nat))) ∈ walk) → backupRun md5 walk = Except.error ()) ∧
    ((∀ pc ∈ walk, pc.2 ≠ (none : Option (List Nat))) →
      ∃ entries, backupRun md5 walk =
        Except.ok (⟨hashWalk md5 walk, (hashWalk md5 walk).length⟩, entries)) := by
  refine ⟨rfl, ?_, ?_, by simp [hashWalk], ?_, ?_⟩
  · intro pc hpc
    exact List.mem_map_of_mem _ hpc
  · intro p hp
    exact List.mem_map_of_mem (fun pc => (pc.1, calculate_file_hash md5 pc.2)) hp
  · rintro ⟨p, hp⟩
    unfold backupRun
    rw [zipLoop_none_of_mem walk p hp]
  · intro h
    obtain ⟨es, hes⟩ := zipLoop_some_of_readable walk h
    refine ⟨es, ?_⟩
    unfold backupRun
    rw [hes]

/-- Witness for the amended claim C6: on the concrete walk with an unreadable
file, the hash map carries the null marker for it and the run fails. -/
theorem backup_unreadable_amended_witness :
    (("bad.txt", (none : Option (List Nat))) ∈ wWalk) ∧
    ("bad.txt", (none : Option String)) ∈ hashWalk wMd5 wWalk ∧
    backupRun wMd5 wWalk = Except.error () :=
  ⟨by decide,
    (backup_unreadable_amended wMd5 wWalk).2.2.1 "bad.txt" (by decide),
    (backup_unreadable_amended wMd5 wWalk).2.2.2.2.1 ⟨"bad.txt", by decide⟩⟩

/-- Claim C10: a key present in both manifests whose stored digest is the
null unavailable marker on both sides is classified unchanged (and not
modified) by the hash-based compare, while the legacy byte comparator reports
any file it cannot read as different. -/
theorem unavailable_marker_comparison {α : Type} [DecidableEq α] (A B : Manifest α)
    (f : String) (hA : f ∈ A.keys) (hB : f ∈ B.keys)
    (dA : A.digest f = none) (dB : B.digest f = none) :
    f ∈ (get_hash_based_differences A B).unchanged ∧
    f ∉ (get_hash_based_differences A B).modified ∧
    (∀ c : Option (List Nat), files_differ_io none c = true ∧ files_differ_io c none = true) := by
  refine ⟨?_, ?_, ?_⟩
  · simp [get_hash_based_differences, Finset.mem_filter, Finset.mem_inter, hA, hB, dA, dB]
  · simp [get_hash_based_differences, Finset.mem_filter, Finset.mem_inter, hA, hB, dA, dB]
  · intro c
    cases c
    · exact ⟨rfl, rfl⟩
    · exact ⟨rfl, rfl⟩

/-- Witness for claim C10: two concrete manifests sharing a key with null
digests classify it as unchanged. -/
theorem unavailable_marker_comparison_witness :
    ("u" ∈ mU.keys) ∧ mU.digest "u" = none ∧ mV.digest "u" = none ∧
    ("u" ∈ (get_hash_based_differences mU mV).unchanged ∧
      "u" ∉ (get_hash_based_differences mU mV).modified ∧
      (∀ c : Option (List Nat), files_differ_io none c = true ∧ files_differ_io c none = true)) :=
  ⟨by decide, rfl, rfl, unavailable_marker_comparison mU mV "u" (by decide) (by decide) rfl rfl⟩

/-- Claim C4, evaluated at a failing input: for a one-line change in a .py
file the unified diff holds exactly one minus content line and one plus
content line, but because add_diff_to_widget tests the plus and minus cases
before the file-header cases, the two file-header lines are labeled as an
added and a removed line: the widget shows two added and two removed labels
and no file-header label. -/
theorem diff_label_header_bug :
    (add_diff_to_widget ((get_file_diff_run "B1.zip" "B2.zip"
        (some [("a.py", ["c\n", "x\n", "d\n"])])
        (some [("a.py", ["c\n", "y\n", "d\n"])])
        "a.py" ⟨false, false⟩).2.getD [])).count DiffLabel.added = 2 ∧
    (add_diff_to_widget ((get_file_diff_run "B1.zip" "B2.zip"
        (some [("a.py", ["c\n", "x\n", "d\n"])])
        (some [("a.py", ["c\n", "y\n", "d\n"])])
        "a.py" ⟨false, false⟩).2.getD [])).count DiffLabel.removed = 2 ∧
    (add_diff_to_widget ((get_file_diff_run "B1.zip" "B2.zip"
        (some [("a.py", ["c\n", "x\n", "d\n"])])
        (some [("a.py", ["c\n", "y\n", "d\n"])])
        "a.py" ⟨false, false⟩).2.getD [])).count DiffLabel.fileHeader = 0 ∧
    (add_diff_to_widget ((get_file_diff_run "B1.zip" "B2.zip"
        (some [("a.py", ["c\n", "x\n", "d\n"])])
        (some [("a.py", ["c\n", "y\n", "d\n"])])
        "a.py" ⟨false, false⟩).2.getD [])).count DiffLabel.hunkHeader = 1 ∧
    (add_diff_to_widget ((get_file_diff_run "B1.zip" "B2.zip"
        (some [("a.py", ["c\n", "x\n", "d\n"])])
        (some [("a.py", ["c\n", "y\n", "d\n"])])
        "a.py" ⟨false, false⟩).2.getD [])).count DiffLabel.context = 2 := by
  decide

/-- Counterexample to claim C8: when both extractions succeed but the
requested file is absent from one extracted tree, get_file_diff returns early
and both temporary directories are left in place. -/
theorem get_file_diff_leaves_temps :
    ((get_file_diff_run "B1.zip" "B2.zip" (some [("a.txt", ["x\n"])]) (some [])
        "a.txt" ⟨false, false⟩).1).tempSource = true ∧
    ((get_file_diff_run "B1.zip" "B2.zip" (some [("a.txt", ["x\n"])]) (some [])
        "a.txt" ⟨false, false⟩).1).tempCompare = true ∧
    (get_file_diff_run "B1.zip" "B2.zip" (some [("a.txt", ["x\n"])]) (some [])
        "a.txt" ⟨false, false⟩).2 = none := by
  decide

/-- Claim C8 as amended: compare_backups_legacy removes both temporary
directories on every path (success and extraction failure); get_file_diff
removes them on its success and extraction-failure paths, except that when
both extractions succeed and the requested file is missing from either tree it
returns with both temporary directories still present. -/
theorem temp_cleanup_amended :
    (∀ (e1 e2 : Option (List (String × List Nat))) (st : TmpState),
      (compare_backups_legacy_run e1 e2 st).1 = ⟨false, false⟩) ∧
    (∀ (s c : String) (e1 e2 : Option (List (String × List String))) (fp : String)
      (st : TmpState),
      (get_file_diff_run s c e1 e2 fp st).1 = ⟨false, false⟩ ∨
      (∃ t1 t2, e1 = some t1 ∧ e2 = some t2 ∧
        (t1.lookup fp = none ∨ t2.lookup fp = none) ∧
        (get_file_diff_run s c e1 e2 fp st).1 = ⟨true, true⟩)) := by
  constructor
  · intro e1 e2 st
    cases e1 with
    | none => rfl
    | some t1 =>
      cases e2 with
      | none => rfl
      | some t2 => rfl
  · intro s c e1 e2 fp st
    cases e1 with
    | none => exact Or.inl rfl
    | some t1 =>
      cases e2 with
      | none => exact Or.inl rfl
      | some t2 =>
        rcases hl1 : t1.lookup fp with _ | l1
        · refine Or.inr ⟨t1, t2, rfl, rfl, Or.inl hl1, ?_⟩
          simp [get_file_diff_run, hl1]
        · rcases hl2 : t2.lookup fp with _ | l2
          · refine Or.inr ⟨t1, t2, rfl, rfl, Or.inr hl2, ?_⟩
            simp [get_file_diff_run, hl1, hl2]
          · refine Or.inl ?_
            simp [get_file_diff_run, hl1, hl2]

/-- Claim C9: swapping the two manifests swaps the added and removed sets. -/
theorem compare_swap_symmetry {α : Type} [DecidableEq α] (A B : Manifest α) :
    (get_hash_based_differences A B).added = (get_hash_based_differences B A).removed ∧
    (get_hash_based_differences A B).removed = (get_hash_based_differences B A).added :=
  ⟨rfl, rfl⟩

end LocalVCS

